import Mathlib

set_option maxHeartbeats 1000000

/-!
Shallow embedding of the containix rootless container launcher (Rust).
Rust strings are modelled as lists of characters (`Str`); fallible Rust
functions returning `anyhow::Result` are modelled with `Option` (errors
carry no information the claims need); Rust panics are modelled either as
`none` or with a dedicated `panic` constructor where a claim distinguishes
panics from ordinary errors.  Machine integers (`u16`, `u32`) are modelled
as `Nat` with explicit range checks where the source checks them.
-/

abbrev Str := List Char

/-- Model of Rust `str::split_once(c)`: split at the first occurrence of the
separator character, returning the parts before and after it. -/
def splitOnce (c : Char) : Str → Option (Str × Str)
  | [] => none
  | x :: xs =>
    if x = c then some ([], xs)
    else
      match splitOnce c xs with
      | none => none
      | some (a, b) => some (x :: a, b)

/-- Decimal digit character for a digit value, as produced by Rust `Display`
for unsigned integers. -/
def digitChar (d : Nat) : Char := Char.ofNat (48 + d)

/-- Numeric value of a decimal digit character. -/
def digitVal (c : Char) : Nat := c.toNat - 48

/-- Value of a string of decimal digits, most significant first. -/
def strVal (s : Str) : Nat := s.foldl (fun a c => a * 10 + digitVal c) 0

/-- Fuel-based digit expansion (structural recursion so that the kernel can
evaluate it on concrete inputs). -/
def natToCharsAux : Nat → Nat → List Char
  | 0, _ => []
  | _ + 1, 0 => []
  | fuel + 1, n + 1 => natToCharsAux fuel ((n + 1) / 10) ++ [digitChar ((n + 1) % 10)]

/-- Decimal representation of a natural number, as produced by Rust
`format!` (`Display` for `u16`/`u32`). -/
def natToChars (n : Nat) : Str :=
  if n = 0 then ['0'] else natToCharsAux n n

/-- Model of the sign handling in Rust `from_str` for unsigned integers:
a single leading plus sign is allowed. -/
def stripLeadPlus (s : Str) : Str :=
  match s with
  | c :: r => if c = '+' then r else s
  | [] => s

/-- Model of Rust `str::parse` for an unsigned integer type with maximum
value `maxv`: optional leading plus, at least one ASCII digit, nothing else,
and the value must fit. -/
def parseUNat (maxv : Nat) (s : Str) : Option Nat :=
  let t := stripLeadPlus s
  if t = [] then none
  else if t.all Char.isDigit then
    if strVal t ≤ maxv then some (strVal t) else none
  else none

/-- Rust `u16::from_str`. -/
def parseU16 (s : Str) : Option Nat := parseUNat 65535 s

/-- Rust `u32::from_str`. -/
def parseU32 (s : Str) : Option Nat := parseUNat 4294967295 s

/-- Model of Rust `str::lines`: split on newline, a trailing final newline
produces no extra empty line, and a trailing carriage return is stripped
from each line. -/
def rustLines (s : Str) : List Str :=
  let parts := s.splitOn '\n'
  let parts := if parts.getLast? = some ([] : Str) then parts.dropLast else parts
  parts.map (fun l => if l.getLast? = some '\r' then l.dropLast else l)

/-!
## Nix store items (src/nix_helpers.rs)
-/

/-- Model of `NixStoreItem` (src/nix_helpers.rs): wraps the bare store id. -/
structure NixStoreItem where
  id : Str
deriving DecidableEq

/-- Model of `impl TryFrom<&str> for NixStoreItem` (src/nix_helpers.rs,
lines 40-49): split the input on a slash and require the component list to
be exactly the empty component, "nix", "store" and the item. -/
def NixStoreItem.try_from (value : Str) : Option NixStoreItem :=
  match value.splitOn '/' with
  | [c0, c1, c2, item] =>
    if c0 = [] ∧ c1 = "nix".toList ∧ c2 = "store".toList then some ⟨item⟩ else none
  | _ => none

/-- Model of a Rust `&Path`: either valid UTF-8 with the given characters,
or a path containing non-UTF-8 bytes (for which `to_str` returns `None`). -/
inductive OsPath
  | utf8 (s : Str)
  | nonUtf8

/-- Model of `impl TryFrom<&Path> for NixStoreItem` (src/nix_helpers.rs,
lines 51-59): bail on non-UTF-8, otherwise delegate to the string parser. -/
def NixStoreItem.try_from_path : OsPath → Option NixStoreItem
  | .utf8 s => NixStoreItem.try_from s
  | .nonUtf8 => none

/-- Model of `NixStoreItem::components` (src/nix_helpers.rs, lines 66-70):
`split_once('-')` on the id; the source calls `unwrap_or_else(|| panic!(..))`
on the result, so a missing hyphen is a panic, modelled as `none`. -/
def NixStoreItem.components (it : NixStoreItem) : Option (Str × Str) :=
  splitOnce '-' it.id

/-- Model of `NixStoreItem::name` (src/nix_helpers.rs, lines 72-74): the
second component; propagates the panic of `components` as `none`. -/
def NixStoreItem.name (it : NixStoreItem) : Option Str :=
  (it.components).map Prod.snd

/-!
## Port mappings (src/ports.rs)
-/

/-- Model of `PortMapping` (src/ports.rs). -/
structure PortMapping where
  host_port : Nat
  container_port : Nat
deriving DecidableEq

/-- Model of `impl FromStr for PortMapping` (src/ports.rs, lines 18-36):
a string without a colon is parsed as one `u16` used for both ports,
otherwise it is split at the first colon and both sides parsed as `u16`. -/
def PortMapping.from_str (s : Str) : Option PortMapping :=
  if ':' ∈ s then
    match splitOnce ':' s with
    | none => none
    | some (h, c) =>
      match parseU16 h, parseU16 c with
      | some hp, some cp => some ⟨hp, cp⟩
      | _, _ => none
  else
    (parseU16 s).map fun p => ⟨p, p⟩

/-!
## Volume mounts (src/volume_mount.rs)
-/

/-- Model of `VolumeMount` (src/volume_mount.rs). -/
structure VolumeMount where
  host_path : Str
  container_path : Str
  read_only : Bool
deriving DecidableEq

/-- Model of `impl FromStr for VolumeMount` (src/volume_mount.rs,
lines 25-44): split at the first colon into host and rest; split the rest
at the next colon into container path and options (defaulting to empty
options); options are comma-separated and `read_only` holds iff one of
them is exactly "ro". -/
def VolumeMount.from_str (s : Str) : Option VolumeMount :=
  match splitOnce ':' s with
  | none => none
  | some (host_path, rest) =>
    let pair := (splitOnce ':' rest).getD (rest, [])
    let options := pair.2.splitOn ','
    some ⟨host_path, pair.1, decide ("ro".toList ∈ options)⟩

/-!
## Id-range maps (src/unshare.rs)
-/

/-- Model of `IdRangeMap` (src/unshare.rs, lines 50-55); the `u32` fields
are modelled as `Nat`, field order as in the source. -/
structure IdRangeMap where
  outer_id_start : Nat
  inner_id_start : Nat
  count : Nat
deriving DecidableEq

/-- Model of `IdRangeMap::serialize` (src/unshare.rs, lines 57-64):
`format!("{} {} {}", inner, outer, count)`. -/
def IdRangeMap.serialize (r : IdRangeMap) : Str :=
  natToChars r.inner_id_start ++ ' ' :: natToChars r.outer_id_start ++ ' ' :: natToChars r.count

/-- Model of `IdRanges` (src/unshare.rs, line 66-67): a wrapped list. -/
structure IdRanges where
  ranges : List IdRangeMap
deriving DecidableEq

/-- Model of `IdRanges::serialize` (src/unshare.rs, lines 75-81): serialize
each range and join the results with a newline. -/
def IdRanges.serialize (m : IdRanges) : Str :=
  List.intercalate ['\n'] (m.ranges.map IdRangeMap.serialize)

/-- Line format checked by the claim: `^\d+ \d+ \d+$`, i.e. exactly three
space-separated nonempty runs of ASCII digits. -/
def matchesIdMapLine (l : Str) : Bool :=
  match l.splitOn ' ' with
  | [a, b, c] =>
    (!a.isEmpty) && a.all Char.isDigit && (!b.isEmpty) && b.all Char.isDigit &&
      (!c.isEmpty) && c.all Char.isDigit
  | _ => false

/-!
## C7: namespace set and clone flags (src/unshare.rs)
-/

/-- Model of `UnshareNamespaces` (src/unshare.rs, lines 15-33). -/
inductive UnshareNamespaces
  | Mount
  | Uts
  | Ipc
  | Network
  | Pid
  | Cgroup
  | User
  | Time
deriving DecidableEq

/-- Linux clone-flag constants, as in the nix crate's `CloneFlags`. -/
def CLONE_NEWNS : Nat := 0x00020000

def CLONE_NEWCGROUP : Nat := 0x02000000

def CLONE_NEWUTS : Nat := 0x04000000

def CLONE_NEWIPC : Nat := 0x08000000

def CLONE_NEWUSER : Nat := 0x10000000

def CLONE_NEWPID : Nat := 0x20000000

def CLONE_NEWNET : Nat := 0x40000000

/-- Model of `impl From<UnshareNamespaces> for CloneFlags` (src/unshare.rs,
lines 35-48); the `Time` arm is `unimplemented!()`, i.e. a panic, modelled
as `none`. -/
def cloneFlagBits : UnshareNamespaces → Option Nat
  | .Mount => some CLONE_NEWNS
  | .Uts => some CLONE_NEWUTS
  | .Ipc => some CLONE_NEWIPC
  | .Network => some CLONE_NEWNET
  | .Pid => some CLONE_NEWPID
  | .Cgroup => some CLONE_NEWCGROUP
  | .User => some CLONE_NEWUSER
  | .Time => none

/-- Model of `UnshareEnvironment` (src/unshare.rs, lines 84-95). -/
structure UnshareEnvironment where
  namespaces : List UnshareNamespaces
  uid_maps : IdRanges
  gid_maps : IdRanges
  root : Option Str

/-- Model of `UnshareEnvironment::clone_flags` (src/unshare.rs, lines
97-104): fold the per-namespace flags together with bitwise union starting
from the empty flag set; a panic in any conversion (the `Time` arm)
propagates, modelled as `none`. -/
def UnshareEnvironment.clone_flags (env : UnshareEnvironment) : Option Nat :=
  env.namespaces.foldl
    (fun acc ns =>
      match acc, cloneFlagBits ns with
      | some f, some b => some (f ||| b)
      | _, _ => none)
    (some 0)

/-- Outcome of applying an unshare configuration in-process. -/
inductive EnterResult
  | panicked
  | entered (flags : Nat)
deriving DecidableEq

/-- Model of `UnshareEnvironmentBuilder::enter` (src/unshare.rs, lines
160-168) at the point of the `nix::sched::unshare(unshare.clone_flags())`
call: `clone_flags` is evaluated to produce the syscall argument, so the
`unimplemented!()` panic for `Time` fires before the unshare syscall and
no namespace is entered; otherwise the accumulated flags are applied. -/
def UnshareEnvironment.enter (env : UnshareEnvironment) : EnterResult :=
  match env.clone_flags with
  | none => .panicked
  | some f => .entered f

/-!
## C10: network-config parser (src/network_config.rs)
-/

/-- Result type distinguishing a Rust panic from an ordinary parse error. -/
inductive PResult (α : Type)
  | ok (a : α)
  | err
  | panic
deriving DecidableEq

/-- Model of `NetworkConfig` (src/network_config.rs); the three `Ipv4Addr`
fields are stored as their 32-bit values. -/
structure NetworkConfig where
  host_address : Nat
  container_address : Nat
  netmask : Nat
deriving DecidableEq

/-- Model of one octet of Rust `Ipv4Addr::from_str`: nonempty, ASCII digits
only, no leading zero (except "0" itself), value at most 255. -/
def parseOctet (s : Str) : Option Nat :=
  if s = [] then none
  else if s.all Char.isDigit then
    if 1 < s.length ∧ s.head? = some '0' then none
    else if strVal s ≤ 255 then some (strVal s) else none
  else none

/-- Model of Rust `Ipv4Addr::from_str`, returning the 32-bit value. -/
def parseIpv4 (s : Str) : Option Nat :=
  match s.splitOn '.' with
  | [a, b, c, d] =>
    match parseOctet a, parseOctet b, parseOctet c, parseOctet d with
    | some va, some vb, some vc, some vd =>
      some (((va * 256 + vb) * 256 + vc) * 256 + vd)
    | _, _, _, _ => none
  | _ => none

/-- Rust `u32` subtraction with debug-build overflow checking: underflow is
a panic, modelled as `none`. -/
def checkedSubU32 (a b : Nat) : Option Nat :=
  if b ≤ a then some (a - b) else none

/-- Rust `u32` left shift with debug-build overflow checking: a shift
amount of 32 or more is a panic, modelled as `none`; shifted-out value
bits are discarded. -/
def checkedShlU32 (a sh : Nat) : Option Nat :=
  if sh < 32 then some ((a * 2 ^ sh) % 4294967296) else none

/-- Model of `impl FromStr for NetworkConfig` (src/network_config.rs,
lines 23-44): split on the first '/' into addresses and netmask, split the
addresses on the first '+'; a netmask containing '.' is parsed as a dotted
address, otherwise it is parsed as `u32` and the mask is computed as
`!((1u32 << (32 - netmask)) - 1)` with Rust debug-build overflow checks
(both the subtraction and the shift can panic); finally both addresses are
parsed.  Bitwise not on `u32` is `4294967295 - x`. -/
def NetworkConfig.from_str (s : Str) : PResult NetworkConfig :=
  match splitOnce '/' s with
  | none => .err
  | some (addresses, netmaskStr) =>
    match splitOnce '+' addresses with
    | none => .err
    | some (host, container) =>
      let nm : PResult Nat :=
        if '.' ∈ netmaskStr then
          match parseIpv4 netmaskStr with
          | some a => .ok a
          | none => .err
        else
          match parseU32 netmaskStr with
          | none => .err
          | some n =>
            match checkedSubU32 32 n with
            | none => .panic
            | some sh =>
              match checkedShlU32 1 sh with
              | none => .panic
              | some p =>
                match checkedSubU32 p 1 with
                | none => .panic
                | some q => .ok (4294967295 - q)
      match nm with
      | .panic => .panic
      | .err => .err
      | .ok nmv =>
        match parseIpv4 host, parseIpv4 container with
        | some h, some c => .ok ⟨h, c, nmv⟩
        | _, _ => .err

/-!
## C8: TempDir (src/tempdir.rs)
-/

/-- Filesystem state for the TempDir claims: the set of existing paths. -/
structure FsState where
  dirs : List Str
deriving DecidableEq

/-- Process environment: the system temporary root as returned by
`std::env::temp_dir()`. -/
structure RustEnv where
  temp_dir : Str

/-- Model of `TempDir` (src/tempdir.rs): owns a path. -/
structure TempDir where
  path : Str
deriving DecidableEq

/-- Model of `TempDir::with_name` (src/tempdir.rs, lines 19-28): build the
name from the optional prefix, a hyphen and the suffix, join it onto the
system temporary root, and return `Ok(Self(path))`.  The source performs no
filesystem operation here (no directory is created), which the unchanged
state records. -/
def TempDir.with_name (env : RustEnv) (pfx : Option Str) (sfx : Str) (st : FsState) :
    TempDir × FsState :=
  let name := match pfx with
    | some p => p ++ '-' :: sfx
    | none => sfx
  (⟨env.temp_dir ++ '/' :: name⟩, st)

/-- A path equals the root or lies strictly below it. -/
def pathWithin (root p : Str) : Bool :=
  decide (p = root) || (root ++ ['/']).isPrefixOf p

/-- Model of `impl Drop for TempDir` (src/tempdir.rs, lines 50-56):
`std::fs::remove_dir_all` removes the owned path and everything below it;
a removal error is only logged. -/
def TempDir.drop_fs (t : TempDir) (st : FsState) : FsState :=
  ⟨st.dirs.filter (fun p => !(pathWithin t.path p))⟩

/-!
## C2 and C3: guards, teardown order and the spawn control flow
(src/container.rs, src/mount.rs, src/cli_wrappers/slirp.rs)
-/

/-- Observable events of the container lifecycle used by the teardown and
spawn claims. -/
inductive RunEvent
  | killProcess (pid : Nat)
  | unmount (path : Str)
  | removeDirAll (path : Str)
  | spawnHelper (pid : Nat)
  | portForward (host guest : Nat)
  | logError
deriving DecidableEq

/-- Model of `MountGuard` (src/mount.rs, lines 7-18): an optional target
path; `None` is a disarmed guard. -/
structure MountGuard where
  target : Option Str
deriving DecidableEq

/-- Model of `impl Drop for MountGuard` (src/mount.rs, lines 9-18): unmount
the target if armed; an unmount error is only logged. -/
def MountGuard.dropEvents : MountGuard → List RunEvent
  | ⟨none⟩ => []
  | ⟨some p⟩ => [.unmount p]

/-- Drop of a `Vec<MountGuard>`: Rust drops vector elements front to
back. -/
def mountGuardsDropEvents (gs : List MountGuard) : List RunEvent :=
  gs.foldr (fun g acc => g.dropEvents ++ acc) []

/-- Model of `impl Drop for TempDir` as an event (src/tempdir.rs, lines
50-56): recursively remove the owned path. -/
def TempDir.dropEvents (t : TempDir) : List RunEvent :=
  [.removeDirAll t.path]

/-- Model of `ContainerFsGuard` (src/container.rs, lines 106-115), with the
source's field order, on which Rust's declaration-order field drop
relies. -/
structure ContainerFsGuard where
  volume_mounts : List MountGuard
  nix_mounts : List MountGuard
  tempdir : TempDir
  root : Str

/-- Drop of `ContainerFsGuard`: no explicit `Drop` impl, so the fields drop
in declaration order: volume mounts, then nix (closure) mounts, then the
temp directory; the `root: PathBuf` field has no drop effect. -/
def ContainerFsGuard.dropEvents (fs : ContainerFsGuard) : List RunEvent :=
  mountGuardsDropEvents fs.volume_mounts ++ mountGuardsDropEvents fs.nix_mounts ++
    fs.tempdir.dropEvents

/-- Model of `ContainerGuard` (src/container.rs, lines 243-250): the
network-helper child, the container child (each reduced to its pid, since
neither `std::process::Child` nor `NixUnistdChild` has a `Drop` impl of its
own) and the filesystem guard, in the source's field order. -/
structure ContainerGuard where
  slirp_pid : Nat
  handle_pid : Nat
  root : ContainerFsGuard

/-- Drop of `ContainerGuard` (src/container.rs, lines 264-273): the
explicit `Drop` impl first kills the container child, then kills the slirp
child (kill errors are only logged); afterwards the fields drop in
declaration order, of which only `root` has any effect. -/
def ContainerGuard.dropEvents (g : ContainerGuard) : List RunEvent :=
  RunEvent.killProcess g.handle_pid :: RunEvent.killProcess g.slirp_pid :: g.root.dropEvents

/-- Recognizer for unmount events. -/
def RunEvent.isUnmount : RunEvent → Bool
  | .unmount _ => true
  | _ => false

/-- Failure-injection parameters for one container launch: whether the
unshare/clone `execute` succeeds, whether the ready-pipe creation succeeds,
whether spawning the slirp helper binary succeeds, whether the helper ever
signals readiness on the pipe, and whether the control-socket writes
succeed. -/
structure SpawnWorld where
  executeOk : Bool
  pipeOk : Bool
  helperSpawnOk : Bool
  readySignalled : Bool
  socketWriteOk : Bool
deriving DecidableEq

/-- Model of `ContainerBuilder::spawn` (src/container.rs, lines 191-241)
composed with `Slirp::activate` (src/cli_wrappers/slirp.rs, lines 39-65),
as a result plus an event trace, with failures injected by `SpawnWorld`:
if `execute` fails, the error propagates and dropping the locals releases
the `ContainerFsGuard`; otherwise the container child exists and slirp is
activated: a pipe-creation or helper-spawn failure makes `activate` (and
hence `spawn`) return an error — again only dropping the fs guard, since
neither child handle type has a `Drop` impl — while after a successful
helper spawn a background thread waits for the readiness byte (blocking
forever if it never arrives) and then programs the port forwards over the
control socket, logging an error if a write fails.  No path in this
function sends any signal to the container child. -/
def ContainerBuilder.spawn (w : SpawnWorld) (fs : ContainerFsGuard)
    (ports : List PortMapping) (container_pid helper_pid : Nat) :
    Option ContainerGuard × List RunEvent :=
  if w.executeOk = false then
    (none, fs.dropEvents)
  else if w.pipeOk = false then
    (none, fs.dropEvents)
  else if w.helperSpawnOk = false then
    (none, fs.dropEvents)
  else
    let bg : List RunEvent :=
      if w.readySignalled = false then []
      else if w.socketWriteOk = false then [RunEvent.logError]
      else ports.map (fun p => RunEvent.portForward p.host_port p.container_port)
    (some ⟨helper_pid, container_pid, fs⟩, RunEvent.spawnHelper helper_pid :: bg)

theorem splitOnce_of_not_mem {c : Char} {s : Str} (h : c ∉ s) : splitOnce c s = none := by
  induction s with
  | nil => rfl
  | cons x xs ih =>
    simp only [List.mem_cons, not_or] at h
    obtain ⟨h1, h2⟩ := h
    simp [splitOnce, (show ¬ x = c from fun he => h1 he.symm), ih h2]

theorem splitOnce_append {c : Char} {a b : Str} (h : c ∉ a) :
    splitOnce c (a ++ c :: b) = some (a, b) := by
  induction a with
  | nil => simp [splitOnce]
  | cons x xs ih =>
    simp only [List.mem_cons, not_or] at h
    obtain ⟨h1, h2⟩ := h
    simp [splitOnce, (show ¬ x = c from fun he => h1 he.symm), ih h2]

theorem natToCharsAux_eq_digits {fuel n : Nat} (h : n ≤ fuel) :
    natToCharsAux fuel n = ((Nat.digits 10 n).map digitChar).reverse := by
  induction fuel generalizing n with
  | zero =>
    interval_cases n
    simp [natToCharsAux]
  | succ fuel ih =>
    cases n with
    | zero => simp [natToCharsAux]
    | succ m =>
      have hdiv : (m + 1) / 10 ≤ fuel := by
        have : (m + 1) / 10 < m + 1 := Nat.div_lt_self (Nat.succ_pos m) (by norm_num)
        omega
      rw [natToCharsAux, ih hdiv, Nat.digits_def' (b := 10) (by norm_num) (Nat.succ_pos m)]
      simp

theorem natToChars_eq_digits (n : Nat) :
    natToChars n = if n = 0 then ['0'] else ((Nat.digits 10 n).map digitChar).reverse := by
  unfold natToChars
  split
  · rfl
  · exact natToCharsAux_eq_digits (Nat.le_refl n)

theorem digitChar_isDigit {d : Nat} (h : d < 10) : (digitChar d).isDigit = true := by
  interval_cases d <;> rfl

theorem digitVal_digitChar {d : Nat} (h : d < 10) : digitVal (digitChar d) = d := by
  interval_cases d <;> rfl

theorem natToChars_ne_nil (n : Nat) : natToChars n ≠ [] := by
  rw [natToChars_eq_digits]
  split
  · simp
  · simp [Nat.digits_ne_nil_iff_ne_zero, *]

theorem natToChars_all_digit (n : Nat) : ∀ c ∈ natToChars n, c.isDigit = true := by
  intro c hc
  rw [natToChars_eq_digits] at hc
  split at hc
  · simp at hc
    subst hc
    rfl
  · simp only [List.mem_reverse, List.mem_map] at hc
    obtain ⟨d, hd, rfl⟩ := hc
    exact digitChar_isDigit (Nat.digits_lt_base (by norm_num) hd)

theorem not_mem_of_all_digit {s : Str} (h : ∀ c ∈ s, c.isDigit = true) {c0 : Char}
    (hc : c0.isDigit = false) : c0 ∉ s := by
  intro hm
  rw [h c0 hm] at hc
  exact Bool.noConfusion hc

theorem foldl_digitChar (L : List Nat) (hL : ∀ d ∈ L, d < 10) (a : Nat) :
    List.foldl (fun x c => x * 10 + digitVal c) a ((L.map digitChar).reverse) =
      a * 10 ^ L.length + Nat.ofDigits 10 L := by
  induction L generalizing a with
  | nil => simp [Nat.ofDigits_nil]
  | cons d L ih =>
    have hd : d < 10 := hL d (List.mem_cons_self d L)
    have hL2 : ∀ x ∈ L, x < 10 := fun x hx => hL x (List.mem_cons_of_mem _ hx)
    simp only [List.map_cons, List.reverse_cons, List.foldl_append, List.foldl_cons,
      List.foldl_nil, ih hL2]
    rw [digitVal_digitChar hd, Nat.ofDigits_cons, List.length_cons, pow_succ]
    ring

theorem strVal_natToChars (n : Nat) : strVal (natToChars n) = n := by
  rw [natToChars_eq_digits]
  unfold strVal
  split
  · subst n
    rfl
  · rw [foldl_digitChar _ (fun d hd => Nat.digits_lt_base (by norm_num) hd) 0]
    simp [Nat.ofDigits_digits]

theorem stripLeadPlus_of_digits {s : Str} (h : ∀ c ∈ s, c.isDigit = true) :
    stripLeadPlus s = s := by
  cases s with
  | nil => rfl
  | cons c r =>
    have hc : c.isDigit = true := h c (List.mem_cons_self c r)
    have : ¬ c = '+' := by
      intro he
      rw [he] at hc
      exact Bool.noConfusion hc
    simp [stripLeadPlus, this]

theorem parseUNat_natToChars {maxv n : Nat} (h : n ≤ maxv) :
    parseUNat maxv (natToChars n) = some n := by
  have hd := natToChars_all_digit n
  unfold parseUNat
  rw [stripLeadPlus_of_digits hd]
  rw [if_neg (natToChars_ne_nil n), if_pos (by simp only [List.all_eq_true]; exact hd)]
  rw [strVal_natToChars]
  simp [h]

/-!
## Generic lemmas about `List.splitOn` specialised to characters
-/

theorem splitOn_of_not_mem {c : Char} {s : Str} (h : c ∉ s) : s.splitOn c = [s] := by
  have e : s.splitOn c = s.splitOnP (· == c) := rfl
  rw [e]
  exact List.splitOnP_eq_single _ _ (fun x hx => by
    simp only [beq_iff_eq]
    exact fun he => h (he ▸ hx))

theorem splitOn_first_sep {c : Char} {a rest : Str} (h : c ∉ a) :
    (a ++ c :: rest).splitOn c = a :: rest.splitOn c := by
  have e1 : (a ++ c :: rest).splitOn c = (a ++ c :: rest).splitOnP (· == c) := rfl
  have e2 : rest.splitOn c = rest.splitOnP (· == c) := rfl
  rw [e1, e2]
  exact List.splitOnP_first (p := fun x => x == c) a (fun x hx => by
    simp only [beq_iff_eq]
    exact fun he => h (he ▸ hx)) c (beq_self_eq_true c) rest

theorem mem_of_getLast?_eq {α : Type} {l : List α} {a : α} (h : l.getLast? = some a) :
    a ∈ l := by
  obtain ⟨hne, heq⟩ := List.mem_getLast?_eq_getLast (x := a) h
  rw [heq]
  exact List.getLast_mem hne

/-!
## C1 and C9: the store-path parser
-/

/-- C1 counterexample: the claim says the parser accepts the bare store id,
but `NixStoreItem::try_from` pattern-matches the slash components against
exactly `["", "nix", "store", item]`, so a bare id (no slashes at all) is
rejected. -/
theorem nix_store_parser_bare_id_counterexample :
    NixStoreItem.try_from "abc123-hello".toList = none := by decide

/-- C1 (amended): the StorePath parser accepts exactly the absolute
`/nix/store/<id>` form: it succeeds on `/nix/store/` followed by a
slash-free id and on nothing else; in particular it fails on bare ids
(no slash), on paths with extra components such as `/nix/store/abc/def`,
and on paths containing non-UTF-8 bytes. -/
theorem nix_store_parser_amended :
    (∀ id : Str, '/' ∉ id →
      NixStoreItem.try_from ("/nix/store/".toList ++ id) = some ⟨id⟩) ∧
    (∀ s : Str, '/' ∉ s → NixStoreItem.try_from s = none) ∧
    (∀ (s : Str) (it : NixStoreItem), NixStoreItem.try_from s = some it →
      s = "/nix/store/".toList ++ it.id) ∧
    NixStoreItem.try_from "/nix/store/abc/def".toList = none ∧
    NixStoreItem.try_from_path OsPath.nonUtf8 = none := by
  refine ⟨?_, ?_, ?_, by decide, rfl⟩
  · intro id hid
    have e : ("/nix/store/".toList ++ id) =
        ([] : Str) ++ '/' :: ("nix".toList ++ '/' :: ("store".toList ++ '/' :: id)) := rfl
    rw [NixStoreItem.try_from, e, splitOn_first_sep (by simp), splitOn_first_sep (by decide),
      splitOn_first_sep (by decide), splitOn_of_not_mem hid]
    simp
  · intro s hs
    rw [NixStoreItem.try_from, splitOn_of_not_mem hs]
  · intro s it h
    have hrec := List.intercalate_splitOn s '/'
    rw [NixStoreItem.try_from] at h
    split at h
    · rename_i c0 c1 c2 item heq
      split at h
      · rename_i hcond
        obtain ⟨h0, h1, h2⟩ := hcond
        injection h with h'
        subst h0 h1 h2
        rw [← h']
        rw [heq] at hrec
        have key : ['/'].intercalate [([] : Str), "nix".toList, "store".toList, item] =
            "/nix/store/".toList ++ item := by
          simp [List.intercalate, List.intersperse]
        rw [key] at hrec
        exact hrec.symm
      · exact absurd h (by simp)
    · exact absurd h (by simp)

theorem nix_store_parser_amended_witness :
    NixStoreItem.try_from ("/nix/store/".toList ++ "abc123-hello".toList) =
      some ⟨"abc123-hello".toList⟩ ∧
    NixStoreItem.try_from "zzz".toList = none :=
  ⟨nix_store_parser_amended.1 "abc123-hello".toList (by decide),
   nix_store_parser_amended.2.1 "zzz".toList (by decide)⟩

/-- C9: `NixStoreItem::components` (and hence `name`) panics (modelled as
`none`) whenever the stored id contains no hyphen, while the parser accepts
hyphen-free ids such as `/nix/store/abc`; so `name` diverges on a parseable
input. -/
theorem nix_store_name_panics :
    (∀ id : Str, '-' ∉ id →
      NixStoreItem.components ⟨id⟩ = none ∧ NixStoreItem.name ⟨id⟩ = none) ∧
    NixStoreItem.try_from "/nix/store/abc".toList = some ⟨"abc".toList⟩ ∧
    NixStoreItem.name ⟨"abc".toList⟩ = none := by
  refine ⟨?_, by decide, by decide⟩
  intro id hid
  have h : splitOnce '-' id = none := splitOnce_of_not_mem hid
  exact ⟨h, by simp [NixStoreItem.name, NixStoreItem.components, h]⟩

theorem nix_store_name_panics_witness :
    NixStoreItem.components ⟨"abc".toList⟩ = none ∧
    NixStoreItem.name ⟨"abc".toList⟩ = none :=
  nix_store_name_panics.1 "abc".toList (by decide)

theorem parseUNat_natToChars_gt {maxv n : Nat} (h : maxv < n) :
    parseUNat maxv (natToChars n) = none := by
  have hd := natToChars_all_digit n
  unfold parseUNat
  rw [stripLeadPlus_of_digits hd]
  rw [if_neg (natToChars_ne_nil n), if_pos (by simp only [List.all_eq_true]; exact hd)]
  rw [if_neg (by rw [strVal_natToChars]; omega)]

/-!
## C5: the port-mapping parser
-/

/-- C5: the PortMapping parser maps the decimal string of `p ≤ 65535` to the
mapping `(p, p)`, maps `H:C` with both sides decimal 16-bit values to
`(H, C)`, fails on out-of-range bare values, and on the claim's boundary
examples rejects "65536" and "0:foo" while accepting "0" and "65535:1". -/
theorem port_mapping_parse_spec :
    (∀ p : Nat, p ≤ 65535 →
      PortMapping.from_str (natToChars p) = some ⟨p, p⟩) ∧
    (∀ h c : Nat, h ≤ 65535 → c ≤ 65535 →
      PortMapping.from_str (natToChars h ++ ':' :: natToChars c) = some ⟨h, c⟩) ∧
    (∀ p : Nat, 65535 < p → PortMapping.from_str (natToChars p) = none) ∧
    PortMapping.from_str "65536".toList = none ∧
    PortMapping.from_str "0:foo".toList = none ∧
    PortMapping.from_str "0".toList = some ⟨0, 0⟩ ∧
    PortMapping.from_str "65535:1".toList = some ⟨65535, 1⟩ := by
  refine ⟨?_, ?_, ?_, by decide, by decide, by decide, by decide⟩
  · intro p hp
    have hnc : ':' ∉ natToChars p := not_mem_of_all_digit (natToChars_all_digit p) (by decide)
    rw [PortMapping.from_str, if_neg hnc,
      show parseU16 (natToChars p) = some p from parseUNat_natToChars hp]
    rfl
  · intro h c hh hc
    have hmem : ':' ∈ natToChars h ++ ':' :: natToChars c :=
      List.mem_append_right _ (List.mem_cons_self _ _)
    have hnc : ':' ∉ natToChars h := not_mem_of_all_digit (natToChars_all_digit h) (by decide)
    rw [PortMapping.from_str, if_pos hmem, splitOnce_append hnc]
    simp only [parseU16, parseUNat_natToChars hh, parseUNat_natToChars hc]
  · intro p hp
    have hnc : ':' ∉ natToChars p := not_mem_of_all_digit (natToChars_all_digit p) (by decide)
    rw [PortMapping.from_str, if_neg hnc,
      show parseU16 (natToChars p) = none from parseUNat_natToChars_gt hp]
    rfl

theorem port_mapping_parse_spec_witness :
    PortMapping.from_str (natToChars 8080) = some ⟨8080, 8080⟩ ∧
    PortMapping.from_str (natToChars 80 ++ ':' :: natToChars 8080) = some ⟨80, 8080⟩ ∧
    PortMapping.from_str (natToChars 70000) = none :=
  ⟨port_mapping_parse_spec.1 8080 (by norm_num),
   port_mapping_parse_spec.2.1 80 8080 (by norm_num) (by norm_num),
   port_mapping_parse_spec.2.2.1 70000 (by norm_num)⟩

/-!
## C6: the volume-mount parser
-/

/-- C6: the VolumeMount parser yields `read_only = false` for `H:C` with no
options, `read_only = true` whenever the comma-separated option list after
the second colon contains "ro" (in particular for `H:C:ro` and
`H:C:a,ro,b`), and fails on strings without a colon such as "abc". -/
theorem volume_mount_parse_spec :
    (∀ h c : Str, ':' ∉ h → ':' ∉ c →
      VolumeMount.from_str (h ++ ':' :: c) = some ⟨h, c, false⟩) ∧
    (∀ h c opts : Str, ':' ∉ h → ':' ∉ c → "ro".toList ∈ opts.splitOn ',' →
      VolumeMount.from_str (h ++ ':' :: (c ++ ':' :: opts)) = some ⟨h, c, true⟩) ∧
    (∀ s : Str, ':' ∉ s → VolumeMount.from_str s = none) ∧
    VolumeMount.from_str "abc".toList = none ∧
    VolumeMount.from_str "/data:/data:ro".toList =
      some ⟨"/data".toList, "/data".toList, true⟩ ∧
    VolumeMount.from_str "/data:/data:a,ro,b".toList =
      some ⟨"/data".toList, "/data".toList, true⟩ := by
  refine ⟨?_, ?_, ?_, by decide, by decide, by decide⟩
  · intro h c hh hc
    rw [VolumeMount.from_str, splitOnce_append hh]
    simp [splitOnce_of_not_mem hc]
  · intro h c opts hh hc hro
    have hro2 : ['r', 'o'] ∈ opts.splitOn ',' := hro
    rw [VolumeMount.from_str, splitOnce_append hh]
    simp [splitOnce_append hc, hro2]
  · intro s hs
    rw [VolumeMount.from_str, splitOnce_of_not_mem hs]

theorem volume_mount_parse_spec_witness :
    VolumeMount.from_str ("/h".toList ++ ':' :: "/c".toList) =
      some ⟨"/h".toList, "/c".toList, false⟩ ∧
    VolumeMount.from_str ("/h".toList ++ ':' :: ("/c".toList ++ ':' :: "a,ro,b".toList)) =
      some ⟨"/h".toList, "/c".toList, true⟩ ∧
    VolumeMount.from_str "nocolon".toList = none :=
  ⟨volume_mount_parse_spec.1 "/h".toList "/c".toList (by decide) (by decide),
   volume_mount_parse_spec.2.1 "/h".toList "/c".toList "a,ro,b".toList
     (by decide) (by decide) (by decide),
   volume_mount_parse_spec.2.2.1 "nocolon".toList (by decide)⟩

/-!
## C4: id-map serialization
-/

theorem serialize_shape (r : IdRangeMap) :
    r.serialize = natToChars r.inner_id_start ++
      ' ' :: (natToChars r.outer_id_start ++ ' ' :: natToChars r.count) := by
  simp [IdRangeMap.serialize]

theorem serialize_chars (r : IdRangeMap) :
    ∀ ch ∈ r.serialize, ch.isDigit = true ∨ ch = ' ' := by
  intro ch hch
  rw [serialize_shape] at hch
  rcases List.mem_append.1 hch with h1 | h2
  · exact Or.inl (natToChars_all_digit _ _ h1)
  · rcases List.mem_cons.1 h2 with rfl | h3
    · exact Or.inr rfl
    · rcases List.mem_append.1 h3 with h4 | h5
      · exact Or.inl (natToChars_all_digit _ _ h4)
      · rcases List.mem_cons.1 h5 with rfl | h6
        · exact Or.inr rfl
        · exact Or.inl (natToChars_all_digit _ _ h6)

theorem serialize_ne_nil (r : IdRangeMap) : r.serialize ≠ [] := by
  rw [serialize_shape]
  intro h
  exact natToChars_ne_nil r.inner_id_start (List.append_eq_nil.1 h).1

theorem serialize_no_newline (r : IdRangeMap) : '\n' ∉ r.serialize := by
  intro h
  rcases serialize_chars r _ h with hd | hsp
  · exact absurd hd (by decide)
  · exact absurd hsp (by decide)

theorem serialize_last_not_cr (r : IdRangeMap) : r.serialize.getLast? ≠ some '\r' := by
  intro h
  rcases serialize_chars r _ (mem_of_getLast?_eq h) with hd | hsp
  · exact absurd hd (by decide)
  · exact absurd hsp (by decide)

theorem matchesIdMapLine_serialize (r : IdRangeMap) :
    matchesIdMapLine r.serialize = true := by
  have hsp : (' ' : Char).isDigit = false := by decide
  have h1 := not_mem_of_all_digit (natToChars_all_digit r.inner_id_start) hsp
  have h2 := not_mem_of_all_digit (natToChars_all_digit r.outer_id_start) hsp
  have h3 := not_mem_of_all_digit (natToChars_all_digit r.count) hsp
  have hshape : r.serialize =
      natToChars r.inner_id_start ++ ' ' ::
        (natToChars r.outer_id_start ++ ' ' :: natToChars r.count) := by
    simp [IdRangeMap.serialize]
  rw [matchesIdMapLine, hshape, splitOn_first_sep h1, splitOn_first_sep h2,
    splitOn_of_not_mem h3]
  simp only [Bool.and_eq_true, List.all_eq_true]
  refine ⟨⟨⟨⟨⟨?_, natToChars_all_digit _⟩, ?_⟩, natToChars_all_digit _⟩, ?_⟩,
    natToChars_all_digit _⟩
  · cases hne : natToChars r.inner_id_start with
    | nil => exact absurd hne (natToChars_ne_nil _)
    | cons a l => rfl
  · cases hne : natToChars r.outer_id_start with
    | nil => exact absurd hne (natToChars_ne_nil _)
    | cons a l => rfl
  · cases hne : natToChars r.count with
    | nil => exact absurd hne (natToChars_ne_nil _)
    | cons a l => rfl

/-- C4: for every list of id ranges, the serialization has one line per
range, every line matches the form digits-space-digits-space-digits
(`^\d+ \d+ \d+$`), the lines are exactly the serializations of the ranges
joined by single newlines, and the line count equals the range count. -/
theorem id_map_serialize_lines (m : IdRanges) :
    rustLines m.serialize = m.ranges.map IdRangeMap.serialize ∧
    (rustLines m.serialize).length = m.ranges.length ∧
    ∀ l ∈ rustLines m.serialize, matchesIdMapLine l = true := by
  obtain ⟨rs⟩ := m
  have hlines : rustLines (IdRanges.serialize ⟨rs⟩) = rs.map IdRangeMap.serialize := by
    cases rs with
    | nil => rfl
    | cons r rs2 =>
      have hnn : ∀ l ∈ (r :: rs2).map IdRangeMap.serialize, '\n' ∉ l := by
        intro l hl
        rcases List.mem_map.1 hl with ⟨r2, -, rfl⟩
        exact serialize_no_newline r2
      have hne : (r :: rs2).map IdRangeMap.serialize ≠ [] := by simp
      have hsplit : (IdRanges.serialize ⟨r :: rs2⟩).splitOn '\n' =
          (r :: rs2).map IdRangeMap.serialize :=
        List.splitOn_intercalate ((r :: rs2).map IdRangeMap.serialize) '\n' hnn hne
      have hlast : ((r :: rs2).map IdRangeMap.serialize).getLast? ≠ some ([] : Str) := by
        intro h
        rcases List.mem_map.1 (mem_of_getLast?_eq h) with ⟨r2, -, heq⟩
        exact serialize_ne_nil r2 heq
      have hmap : ∀ l ∈ (r :: rs2).map IdRangeMap.serialize,
          (if l.getLast? = some '\r' then l.dropLast else l) = id l := by
        intro l hl
        rcases List.mem_map.1 hl with ⟨r2, -, rfl⟩
        rw [if_neg (serialize_last_not_cr r2)]
        rfl
      simp only [rustLines, hsplit, if_neg hlast]
      rw [List.map_congr_left hmap, List.map_id]
  refine ⟨hlines, by rw [hlines]; simp, ?_⟩
  intro l hl
  rw [hlines] at hl
  rcases List.mem_map.1 hl with ⟨r2, -, rfl⟩
  exact matchesIdMapLine_serialize r2

theorem id_map_serialize_lines_witness :
    (rustLines (IdRanges.serialize ⟨[⟨1000, 0, 1⟩]⟩)).length = 1 ∧
    matchesIdMapLine "0 1000 1".toList = true :=
  ⟨(id_map_serialize_lines ⟨[⟨1000, 0, 1⟩]⟩).2.1,
   (id_map_serialize_lines ⟨[⟨1000, 0, 1⟩]⟩).2.2 "0 1000 1".toList (by decide)⟩

theorem clone_flags_foldl_none (l : List UnshareNamespaces) :
    l.foldl
      (fun acc ns =>
        match acc, cloneFlagBits ns with
        | some f, some b => some (f ||| b)
        | _, _ => none)
      none = none := by
  induction l with
  | nil => rfl
  | cons x xs ih =>
    rw [List.foldl_cons]
    cases cloneFlagBits x <;> exact ih

theorem clone_flags_none_of_time {l : List UnshareNamespaces}
    (h : UnshareNamespaces.Time ∈ l) (acc : Option Nat) :
    l.foldl
      (fun acc ns =>
        match acc, cloneFlagBits ns with
        | some f, some b => some (f ||| b)
        | _, _ => none)
      acc = none := by
  induction l generalizing acc with
  | nil => exact absurd h (List.not_mem_nil _)
  | cons x xs ih =>
    rw [List.foldl_cons]
    rcases List.mem_cons.1 h with rfl | hxs
    · cases acc with
      | none => exact clone_flags_foldl_none xs
      | some f => exact clone_flags_foldl_none xs
    · exact ih hxs _

/-- C7: the namespace-to-clone-flag mapping sends Mount to NEWNS, Uts to
NEWUTS, Ipc to NEWIPC, Network to NEWNET, Pid to NEWPID, Cgroup to
NEWCGROUP and User to NEWUSER; and any unshare configuration whose
namespace set contains Time is rejected as unimplemented (the panic fires
while computing the syscall argument, before any namespace is entered). -/
theorem clone_flag_mapping :
    cloneFlagBits UnshareNamespaces.Mount = some CLONE_NEWNS ∧
    cloneFlagBits UnshareNamespaces.Uts = some CLONE_NEWUTS ∧
    cloneFlagBits UnshareNamespaces.Ipc = some CLONE_NEWIPC ∧
    cloneFlagBits UnshareNamespaces.Network = some CLONE_NEWNET ∧
    cloneFlagBits UnshareNamespaces.Pid = some CLONE_NEWPID ∧
    cloneFlagBits UnshareNamespaces.Cgroup = some CLONE_NEWCGROUP ∧
    cloneFlagBits UnshareNamespaces.User = some CLONE_NEWUSER ∧
    (∀ env : UnshareEnvironment, UnshareNamespaces.Time ∈ env.namespaces →
      env.clone_flags = none ∧ env.enter = EnterResult.panicked) := by
  refine ⟨rfl, rfl, rfl, rfl, rfl, rfl, rfl, ?_⟩
  intro env htime
  have h : env.clone_flags = none := clone_flags_none_of_time htime (some 0)
  exact ⟨h, by rw [UnshareEnvironment.enter, h]⟩

theorem clone_flag_mapping_witness :
    UnshareEnvironment.clone_flags
        ⟨[UnshareNamespaces.Mount, UnshareNamespaces.Time], ⟨[]⟩, ⟨[]⟩, none⟩ = none ∧
    UnshareEnvironment.enter
        ⟨[UnshareNamespaces.Mount, UnshareNamespaces.Time], ⟨[]⟩, ⟨[]⟩, none⟩ =
      EnterResult.panicked :=
  clone_flag_mapping.2.2.2.2.2.2.2
    ⟨[UnshareNamespaces.Mount, UnshareNamespaces.Time], ⟨[]⟩, ⟨[]⟩, none⟩ (by decide)

/-- C10: the netmask computation in `NetworkConfig::from_str` panics for a
CIDR netmask of 0 (shift overflow) and for every parseable value greater
than 32 (subtraction underflow), while every CIDR value in 1..=32 is
accepted; shown on the claim's inputs `10.0.0.1+10.0.0.2/0` and
`10.0.0.1+10.0.0.2/33` and generically over the netmask value. -/
theorem network_config_netmask_overflow :
    NetworkConfig.from_str "10.0.0.1+10.0.0.2/0".toList = PResult.panic ∧
    NetworkConfig.from_str "10.0.0.1+10.0.0.2/33".toList = PResult.panic ∧
    (∀ n : Nat, 32 < n → n ≤ 4294967295 →
      NetworkConfig.from_str ("10.0.0.1+10.0.0.2/".toList ++ natToChars n) =
        PResult.panic) ∧
    (∀ n : Nat, 1 ≤ n → n ≤ 32 →
      NetworkConfig.from_str ("10.0.0.1+10.0.0.2/".toList ++ natToChars n) =
        PResult.ok ⟨167772161, 167772162, 4294967296 - 2 ^ (32 - n)⟩) := by
  have hslash : '/' ∉ "10.0.0.1+10.0.0.2".toList := by decide
  have hplus : splitOnce '+' "10.0.0.1+10.0.0.2".toList =
      some ("10.0.0.1".toList, "10.0.0.2".toList) := by decide
  have hhost : parseIpv4 "10.0.0.1".toList = some 167772161 := by decide
  have hcont : parseIpv4 "10.0.0.2".toList = some 167772162 := by decide
  refine ⟨by decide, by decide, ?_, ?_⟩
  · intro n h32 hmax
    have e : "10.0.0.1+10.0.0.2/".toList ++ natToChars n =
        "10.0.0.1+10.0.0.2".toList ++ '/' :: natToChars n := rfl
    have hdot : '.' ∉ natToChars n := not_mem_of_all_digit (natToChars_all_digit n) (by decide)
    rw [e, NetworkConfig.from_str, splitOnce_append hslash]
    simp only [hplus, if_neg hdot, parseU32, parseUNat_natToChars hmax, checkedSubU32,
      if_neg (by omega : ¬ n ≤ 32)]
  · intro n h1 h32
    have e : "10.0.0.1+10.0.0.2/".toList ++ natToChars n =
        "10.0.0.1+10.0.0.2".toList ++ '/' :: natToChars n := rfl
    have hdot : '.' ∉ natToChars n := not_mem_of_all_digit (natToChars_all_digit n) (by decide)
    have hpow_lt : 2 ^ (32 - n) < 4294967296 := by
      calc 2 ^ (32 - n) < 2 ^ 32 := Nat.pow_lt_pow_right (by norm_num) (by omega)
        _ = 4294967296 := by norm_num
    have hpow_pos : 1 ≤ 2 ^ (32 - n) := Nat.one_le_two_pow
    rw [e, NetworkConfig.from_str, splitOnce_append hslash]
    simp only [hplus, if_neg hdot, parseU32, parseUNat_natToChars (by omega : n ≤ 4294967295),
      checkedSubU32, if_pos (by omega : n ≤ 32), checkedShlU32,
      if_pos (by omega : 32 - n < 32), one_mul, Nat.mod_eq_of_lt hpow_lt,
      if_pos hpow_pos, hhost, hcont]
    congr 1
    congr 1
    omega

theorem network_config_netmask_overflow_witness :
    NetworkConfig.from_str ("10.0.0.1+10.0.0.2/".toList ++ natToChars 33) = PResult.panic ∧
    NetworkConfig.from_str ("10.0.0.1+10.0.0.2/".toList ++ natToChars 24) =
      PResult.ok ⟨167772161, 167772162, 4294967296 - 2 ^ (32 - 24)⟩ :=
  ⟨network_config_netmask_overflow.2.2.1 33 (by norm_num) (by norm_num),
   network_config_netmask_overflow.2.2.2 24 (by norm_num) (by norm_num)⟩

/-- C8 counterexample: the claim says every successfully constructed TempDir
owns a directory that has been created under the system temporary root, but
`TempDir::with_name` only computes the path; starting from a filesystem
with no directories, the owned path still does not exist afterwards. -/
theorem tempdir_counterexample :
    (TempDir.with_name ⟨"/tmp".toList⟩ (some "containix".toList) "c1".toList ⟨[]⟩).1.path ∉
      (TempDir.with_name ⟨"/tmp".toList⟩ (some "containix".toList) "c1".toList ⟨[]⟩).2.dirs := by
  decide

/-- C8 (amended): every successfully constructed TempDir owns a path under
the system temporary root whose name contains the caller-supplied prefix;
the constructor performs no filesystem change (in particular it does not
create the directory); and dropping the TempDir recursively removes
everything at or below that path while leaving all other paths intact. -/
theorem tempdir_amended (env : RustEnv) (pfx sfx : Str) (st : FsState) :
    (TempDir.with_name env (some pfx) sfx st).2 = st ∧
    (TempDir.with_name env (some pfx) sfx st).1.path =
      env.temp_dir ++ '/' :: (pfx ++ '-' :: sfx) ∧
    (∀ st2 : FsState,
      (TempDir.with_name env (some pfx) sfx st).1.path ∉
        (TempDir.drop_fs (TempDir.with_name env (some pfx) sfx st).1 st2).dirs) ∧
    (∀ (st2 : FsState) (p : Str),
      p ∈ (TempDir.drop_fs (TempDir.with_name env (some pfx) sfx st).1 st2).dirs ↔
        p ∈ st2.dirs ∧ pathWithin (TempDir.with_name env (some pfx) sfx st).1.path p = false) := by
  have hmem : ∀ (t : TempDir) (st2 : FsState) (p : Str),
      p ∈ (TempDir.drop_fs t st2).dirs ↔ p ∈ st2.dirs ∧ pathWithin t.path p = false := by
    intro t st2 p
    simp [TempDir.drop_fs, List.mem_filter]
  refine ⟨rfl, rfl, ?_, fun st2 p => hmem _ st2 p⟩
  intro st2 hm
  have := ((hmem _ st2 _).1 hm).2
  rw [pathWithin] at this
  simp at this

theorem tempdir_amended_witness :
    (TempDir.with_name ⟨"/tmp".toList⟩ (some "containix".toList) "c1".toList
        ⟨["/etc".toList]⟩).2 = ⟨["/etc".toList]⟩ ∧
    (TempDir.with_name ⟨"/tmp".toList⟩ (some "containix".toList) "c1".toList
        ⟨["/etc".toList]⟩).1.path ∉
      (TempDir.drop_fs
        (TempDir.with_name ⟨"/tmp".toList⟩ (some "containix".toList) "c1".toList
          ⟨["/etc".toList]⟩).1
        ⟨["/tmp/containix-c1".toList, "/tmp/containix-c1/root".toList]⟩).dirs :=
  ⟨(tempdir_amended ⟨"/tmp".toList⟩ "containix".toList "c1".toList ⟨["/etc".toList]⟩).1,
   (tempdir_amended ⟨"/tmp".toList⟩ "containix".toList "c1".toList ⟨["/etc".toList]⟩).2.2.1
     ⟨["/tmp/containix-c1".toList, "/tmp/containix-c1/root".toList]⟩⟩

theorem mountGuardsDropEvents_unmount (gs : List MountGuard) :
    ∀ e ∈ mountGuardsDropEvents gs, e.isUnmount = true := by
  induction gs with
  | nil => intro e he; simp [mountGuardsDropEvents] at he
  | cons g gs ih =>
    intro e he
    rw [mountGuardsDropEvents, List.foldr_cons] at he
    rcases List.mem_append.1 he with h1 | h2
    · obtain ⟨t⟩ := g
      cases t with
      | none => simp [MountGuard.dropEvents] at h1
      | some p =>
        rw [MountGuard.dropEvents] at h1
        rcases List.mem_singleton.1 h1 with rfl
        rfl
    · exact ih e h2

theorem fs_dropEvents_kinds (fs : ContainerFsGuard) :
    ∀ e ∈ fs.dropEvents, e.isUnmount = true ∨ e = RunEvent.removeDirAll fs.tempdir.path := by
  intro e he
  rw [ContainerFsGuard.dropEvents] at he
  rcases List.mem_append.1 he with h1 | h2
  · rcases List.mem_append.1 h1 with h3 | h4
    · exact Or.inl (mountGuardsDropEvents_unmount _ e h3)
    · exact Or.inl (mountGuardsDropEvents_unmount _ e h4)
  · rw [TempDir.dropEvents] at h2
    exact Or.inr (List.mem_singleton.1 h2)

/-- C2: dropping a `ContainerGuard` first kills the container child, then
kills the network-helper child, then releases the `ContainerFs`; within the
`ContainerFs`, the event sequence is exactly the volume-mount guard
releases, then the closure-mount guard releases, then the temp-directory
removal, so every guard is released before the temp directory is removed
and no guard outlives it. -/
theorem container_teardown_order (g : ContainerGuard) :
    g.dropEvents.head? = some (RunEvent.killProcess g.handle_pid) ∧
    g.dropEvents[1]? = some (RunEvent.killProcess g.slirp_pid) ∧
    g.dropEvents.drop 2 = g.root.dropEvents ∧
    g.root.dropEvents.getLast? = some (RunEvent.removeDirAll g.root.tempdir.path) ∧
    g.root.dropEvents.dropLast =
      mountGuardsDropEvents g.root.volume_mounts ++
        mountGuardsDropEvents g.root.nix_mounts ∧
    (∀ e ∈ mountGuardsDropEvents g.root.volume_mounts, e.isUnmount = true) ∧
    (∀ e ∈ mountGuardsDropEvents g.root.nix_mounts, e.isUnmount = true) := by
  have hshape : g.root.dropEvents =
      (mountGuardsDropEvents g.root.volume_mounts ++
        mountGuardsDropEvents g.root.nix_mounts) ++
        [RunEvent.removeDirAll g.root.tempdir.path] := by
    rw [ContainerFsGuard.dropEvents, TempDir.dropEvents, List.append_assoc]
  refine ⟨rfl, by simp [ContainerGuard.dropEvents], rfl, ?_, ?_,
    mountGuardsDropEvents_unmount g.root.volume_mounts,
    mountGuardsDropEvents_unmount g.root.nix_mounts⟩
  · rw [hshape, List.getLast?_concat]
  · rw [hshape, List.dropLast_concat]

theorem container_teardown_order_witness :
    (ContainerGuard.dropEvents
        ⟨7, 5, ⟨[⟨some "/t/root/data".toList⟩], [⟨some "/t/root/nix/store/x".toList⟩],
          ⟨"/t".toList⟩, "/t/root".toList⟩⟩).head? = some (RunEvent.killProcess 5) ∧
    RunEvent.isUnmount (RunEvent.unmount "/t/root/data".toList) = true :=
  ⟨(container_teardown_order
      ⟨7, 5, ⟨[⟨some "/t/root/data".toList⟩], [⟨some "/t/root/nix/store/x".toList⟩],
        ⟨"/t".toList⟩, "/t/root".toList⟩⟩).1,
   (container_teardown_order
      ⟨7, 5, ⟨[⟨some "/t/root/data".toList⟩], [⟨some "/t/root/nix/store/x".toList⟩],
        ⟨"/t".toList⟩, "/t/root".toList⟩⟩).2.2.2.2.2.1
     (RunEvent.unmount "/t/root/data".toList) (by decide)⟩

theorem kill_not_mem_fs_dropEvents (fs : ContainerFsGuard) (pid : Nat) :
    RunEvent.killProcess pid ∉ fs.dropEvents := by
  intro hm
  rcases fs_dropEvents_kinds fs _ hm with hu | he
  · exact Bool.noConfusion hu
  · exact RunEvent.noConfusion he

theorem portForward_not_mem_fs_dropEvents (fs : ContainerFsGuard) (h c : Nat) :
    RunEvent.portForward h c ∉ fs.dropEvents := by
  intro hm
  rcases fs_dropEvents_kinds fs _ hm with hu | he
  · exact Bool.noConfusion hu
  · exact RunEvent.noConfusion he

/-- C3: whenever the container child was spawned but the network helper
fails in any of the claimed ways (the ready pipe cannot be created, the
helper binary fails to spawn, the helper never signals ready, or a
control-socket write fails), the spawn trace contains no kill of the
container child — the failure is reported (error return or log) and the
container keeps running — and no port forward is programmed. -/
theorem helper_failure_never_kills_container (w : SpawnWorld) (fs : ContainerFsGuard)
    (ports : List PortMapping) (cpid hpid : Nat)
    (hexec : w.executeOk = true)
    (hfail : w.pipeOk = false ∨ w.helperSpawnOk = false ∨ w.readySignalled = false ∨
      w.socketWriteOk = false) :
    RunEvent.killProcess cpid ∉ (ContainerBuilder.spawn w fs ports cpid hpid).2 ∧
    ∀ h c : Nat, RunEvent.portForward h c ∉ (ContainerBuilder.spawn w fs ports cpid hpid).2 := by
  have htr : (ContainerBuilder.spawn w fs ports cpid hpid).2 = fs.dropEvents ∨
      (ContainerBuilder.spawn w fs ports cpid hpid).2 = [RunEvent.spawnHelper hpid] ∨
      (ContainerBuilder.spawn w fs ports cpid hpid).2 =
        [RunEvent.spawnHelper hpid, RunEvent.logError] := by
    rw [ContainerBuilder.spawn, hexec]
    cases hp : w.pipeOk with
    | false => simp
    | true =>
      cases hh : w.helperSpawnOk with
      | false => simp
      | true =>
        cases hr : w.readySignalled with
        | false => simp
        | true =>
          cases hs : w.socketWriteOk with
          | false => simp
          | true =>
            rw [hp, hh, hr, hs] at hfail
            simp at hfail
  rcases htr with h | h | h <;> rw [h]
  · exact ⟨kill_not_mem_fs_dropEvents fs cpid,
      fun a b => portForward_not_mem_fs_dropEvents fs a b⟩
  · refine ⟨by simp, ?_⟩
    intro a b
    simp
  · refine ⟨by simp, ?_⟩
    intro a b
    simp

theorem helper_failure_never_kills_container_witness :
    RunEvent.killProcess 9 ∉
      (ContainerBuilder.spawn ⟨true, true, false, true, true⟩
        ⟨[⟨some "/t/root/data".toList⟩], [], ⟨"/t".toList⟩, "/t/root".toList⟩
        [⟨8080, 80⟩] 9 11).2 ∧
    RunEvent.portForward 8080 80 ∉
      (ContainerBuilder.spawn ⟨true, true, false, true, true⟩
        ⟨[⟨some "/t/root/data".toList⟩], [], ⟨"/t".toList⟩, "/t/root".toList⟩
        [⟨8080, 80⟩] 9 11).2 :=
  ⟨(helper_failure_never_kills_container ⟨true, true, false, true, true⟩
      ⟨[⟨some "/t/root/data".toList⟩], [], ⟨"/t".toList⟩, "/t/root".toList⟩
      [⟨8080, 80⟩] 9 11 rfl (Or.inr (Or.inl rfl))).1,
   (helper_failure_never_kills_container ⟨true, true, false, true, true⟩
      ⟨[⟨some "/t/root/data".toList⟩], [], ⟨"/t".toList⟩, "/t/root".toList⟩
      [⟨8080, 80⟩] 9 11 rfl (Or.inr (Or.inl rfl))).2 8080 80⟩
